import Mathlib

/-!
# Verification of the Underworld–Badlands linkage coupling loop

Shallow embedding of `linkagemodel/linkage.py` (class `LinkageModel`).

Modelling conventions:

* Python floats are modelled as exact rationals `ℚ`; the claims under study
  are about control flow, event ordering and exact arithmetic identities of
  the loop, not about rounding.
* Arrays (`T_disp`, tracer coordinates, displacement fields, material
  indices) are modelled as Lean `List`s.
* External collaborators (the user-supplied `update_function`, the
  Underworld swarm advector `integrate`, the velocity-field evaluation and
  the scipy `gaussian_filter`) are oracle functions collected in a `World`
  structure; the loop-owned state they read is passed explicitly.
* `scipy.interpolate.griddata(..., method='linear')` returns NaN for query
  points outside the convex hull of the known samples, and every IEEE
  comparison `z < NaN` is `False`.  We model the interpolation result as
  `Option ℚ` with `none` standing for NaN, and the comparison
  `volume[:, 2] < interpolate_z` as `false` in the `none` case.
* The `assert dt_seconds <= max_seconds` on line 128 of the source is
  modelled by the step returning `Except Violation _`: the `.error` branch
  carries the requested and observed values and the state at the point of
  detection.
-/

namespace Linkage

/-- A 3-vector of rationals (one tracer displacement / velocity sample). -/
abbrev Vec3 : Type := ℚ × ℚ × ℚ

/-- `self.SECONDS_PER_YEAR = float(365 * 24 * 60 * 60)` (linkage.py line 99). -/
def SECONDS_PER_YEAR : ℚ := 365 * 24 * 60 * 60

/-- The loop-owned mutable state of a `LinkageModel` object: simulation
clock, checkpoint schedule, displacement-history bookkeeping, the surface
tracer swarm positions and the displacement slot handed to Badlands
(`badlands_model.force.T_disp` / `force.injected_disps`), plus the
configuration fields the loop reads. -/
structure LState where
  /-- `self.time_years` — simulation time in years. -/
  time_years : ℚ
  /-- `self._checkpoint_number`. -/
  checkpoint_number : ℕ
  /-- `self._next_checkpoint_years`. -/
  next_checkpoint_years : ℚ
  /-- `self._disp_inserted`. -/
  disp_inserted : Bool
  /-- `self.badlands_model.force.T_disp` — rows of (start, end) time bounds. -/
  T_disp : List (ℚ × ℚ)
  /-- `self.badlands_model.force.injected_disps`. -/
  injected_disps : List Vec3
  /-- positions of `self._surface_tracers`. -/
  tracers : List Vec3
  /-- `self._model_started`. -/
  model_started : Bool
  /-- `self.checkpoint_interval` (configuration, default 10000). -/
  checkpoint_interval : ℚ
  deriving Repr, DecidableEq

/-- External collaborators of the loop, given as oracles.  They may read the
loop state but mutate only their own (unmodelled) state; their outputs are
what the loop consumes. -/
structure World where
  /-- `self.update_function(self, max_seconds)` — returns `dt_seconds`. -/
  upd : LState → ℚ → ℚ
  /-- `self._surface_advector.integrate(dt_seconds)` — new tracer positions
  after advecting by the velocity field for `dt_seconds`. -/
  integrate : List Vec3 → ℚ → List Vec3
  /-- `np_velocity_field.evaluate(np_surface_tracers)` — tracer velocities in
  metres per second, sampled after advection and MPI synchronisation. -/
  velocity : LState → List Vec3
  /-- `scipy.ndimage.filters.gaussian_filter` applied componentwise after the
  reshape, as in `_inject_badlands_displacement_smooth` (external library). -/
  smooth : ℚ → List Vec3 → List Vec3

/-- Observable callback invocations made by the loop. -/
inductive Event where
  /-- `self.checkpoint_function(self, checkpoint_number, time_years)`. -/
  | checkpoint (idx : ℕ) (time_years : ℚ)
  deriving Repr, DecidableEq

/-- The checkpoint indices of a list of events, in order of emission. -/
def ckIdxs (evs : List Event) : List ℕ :=
  evs.map fun e => match e with | .checkpoint i _ => i

/-- The data of a failed `assert dt_seconds <= max_seconds` (linkage.py line
128): the requested ceiling, the observed return value of the update
callback, and the loop state at the point of detection. -/
structure Violation where
  requested : ℚ
  observed : ℚ
  state : LState
  deriving Repr, DecidableEq

/-- Overwrite the two time bounds of the first row of `T_disp`
(`T_disp[0, 0] = time; T_disp[0, 1] = time + dt`); the remaining rows are
untouched. -/
def overwriteHead : List (ℚ × ℚ) → ℚ → ℚ → List (ℚ × ℚ)
  | [], _, _ => []
  | _ :: rest, a, b => (a, b) :: rest

/-- `LinkageModel._inject_badlands_displacement(time, dt, disp)` (lines
316–339).  On the first call (`_disp_inserted` false) a new
`[time, time + dt]` row is stacked on top of the existing table; on every
later call the first row's bounds are overwritten in place.  The
displacement slot is always overwritten with `disp`.  (The `force.merge3d`
pass-through touches only external Badlands state and is not part of the
loop-owned state.) -/
def inject_badlands_displacement (time dt : ℚ) (disp : List Vec3)
    (s : LState) : LState :=
  if s.disp_inserted then
    { s with T_disp := overwriteHead s.T_disp time (time + dt),
             injected_disps := disp }
  else
    { s with T_disp := (time, time + dt) :: s.T_disp,
             disp_inserted := true,
             injected_disps := disp }

/-- `LinkageModel._inject_badlands_displacement_smooth(time, dt, disp, sigma)`
(lines 341–379): identical `T_disp` handling, but the displacement is
Gaussian-filtered componentwise before being written to the slot. -/
def inject_badlands_displacement_smooth (W : World) (time dt : ℚ)
    (disp : List Vec3) (sigma : ℚ) (s : LState) : LState :=
  if s.disp_inserted then
    { s with T_disp := overwriteHead s.T_disp time (time + dt),
             injected_disps := W.smooth sigma disp }
  else
    { s with T_disp := (time, time + dt) :: s.T_disp,
             disp_inserted := true,
             injected_disps := W.smooth sigma disp }

/-- The requested ceiling for one step (lines 122–124):
`max_years = min(end_years - t, next_checkpoint - t)` converted to
seconds. -/
def max_seconds_of (end_years : ℚ) (s : LState) : ℚ :=
  min (end_years - s.time_years) (s.next_checkpoint_years - s.time_years)
    * SECONDS_PER_YEAR

/-- One iteration of the `while` loop body of
`LinkageModel.run_for_years` (lines 119–186), in source order:

1. compute `max_seconds`;
2. call the update callback; fail (`assert`, line 128) if it overran;
3. `write_checkpoint = (dt_seconds == max_seconds)`;
4. advect the surface tracers by `dt_seconds`;
5. sample tracer velocities and convert to displacements
   (`tracer_disp = v * SECONDS_PER_YEAR * dt_years`);
6. inject into Badlands (smoothed iff `sigma != 0`);
7. (Badlands `run_to_time` and `_update_material_types` touch only external
   state — the material classifier is modelled separately below);
8. if `write_checkpoint`: fire the checkpoint callback with the current
   index and current `time_years`, increment the index, advance the
   boundary;
9. `time_years += dt_years`.

Returns the new state and the callback events fired during the step, or the
assertion violation. -/
def stepBody (W : World) (sigma end_years : ℚ) (s : LState) :
    Except Violation (LState × List Event) :=
  let max_seconds := max_seconds_of end_years s
  let dt_seconds := W.upd s max_seconds
  if max_seconds < dt_seconds then
    .error ⟨max_seconds, dt_seconds, s⟩
  else
    let write_checkpoint : Bool := dt_seconds = max_seconds
    let dt_years := dt_seconds / SECONDS_PER_YEAR
    let s₁ := { s with tracers := W.integrate s.tracers dt_seconds }
    let tracer_disp :=
      (W.velocity s₁).map fun v =>
        (v.1 * SECONDS_PER_YEAR * dt_years,
         v.2.1 * SECONDS_PER_YEAR * dt_years,
         v.2.2 * SECONDS_PER_YEAR * dt_years)
    let s₂ :=
      if sigma = 0 then
        inject_badlands_displacement s₁.time_years dt_years tracer_disp s₁
      else
        inject_badlands_displacement_smooth W s₁.time_years dt_years
          tracer_disp sigma s₁
    let (s₃, evs) :=
      if write_checkpoint then
        ({ s₂ with checkpoint_number := s₂.checkpoint_number + 1,
                   next_checkpoint_years :=
                     s₂.next_checkpoint_years + s₂.checkpoint_interval },
         [Event.checkpoint s₂.checkpoint_number s₂.time_years])
      else (s₂, [])
    .ok ({ s₃ with time_years := s₃.time_years + dt_years }, evs)

/-- `LinkageModel._startup` (lines 223–279), restricted to the loop-owned
state: set `_next_checkpoint_years = checkpoint_interval`, fire the initial
checkpoint with the current index (0 on a fresh object) and current time,
then increment the index and mark the model started.  (Collaborator
validation, tracer seeding and the initial `_update_material_types` touch
only external state.) -/
def startup (s : LState) : LState × List Event :=
  let s₁ := { s with next_checkpoint_years := s.checkpoint_interval }
  (⟨{ s₁ with checkpoint_number := s₁.checkpoint_number + 1,
              model_started := true },
    [Event.checkpoint s₁.checkpoint_number s₁.time_years]⟩)

/-- The `while self.time_years < end_years` loop of `run_for_years`,
fuel-indexed: with fuel `n` it performs at most `n` iterations of
`stepBody`, stopping early when the guard fails.  Events are accumulated in
emission order. -/
def loopRun (W : World) (sigma end_years : ℚ) :
    ℕ → LState → Except Violation (LState × List Event)
  | 0, s => .ok (s, [])
  | n + 1, s =>
    if s.time_years < end_years then
      match stepBody W sigma end_years s with
      | .error v => .error v
      | .ok (s', evs) =>
        match loopRun W sigma end_years n s' with
        | .error v => .error v
        | .ok (s'', evs') => .ok (s'', evs ++ evs')
    else .ok (s, [])

/-- `LinkageModel.run_for_years(years, sigma)` (lines 110–186): run startup
if not yet started, compute `end_years = time_years + years`, then loop.
`fuel` bounds the number of iterations (the Python loop's termination
depends on the update callback making progress). -/
def run_for_years (W : World) (years sigma : ℚ) (fuel : ℕ) (s : LState) :
    Except Violation (LState × List Event) :=
  let (s₁, evs₀) := if s.model_started then (s, ([] : List Event)) else startup s
  let end_years := s₁.time_years + years
  match loopRun W sigma end_years fuel s₁ with
  | .error v => .error v
  | .ok (s₂, evs) => .ok (s₂, evs₀ ++ evs)

/-- Iterate `stepBody` exactly `n` times (the loop guard aside): "after `N`
coupling steps". -/
def runSteps (W : World) (sigma end_years : ℚ) :
    ℕ → LState → Except Violation LState
  | 0, s => .ok s
  | n + 1, s =>
    match stepBody W sigma end_years s with
    | .error v => .error v
    | .ok (s', _) => runSteps W sigma end_years n s'

/-! ## Material classifier (`_determine_particle_state`,
`_update_material_types`) -/

/-- The comparison `z < interpolate_z` of `_determine_particle_state` (line
304), where `interpolate_z` is the `griddata` linear interpolation result:
`none` models the NaN returned for query points outside the convex hull of
the known samples, and `z < NaN` is `False`. -/
def flagOf (interpZ : Option ℚ) (z : ℚ) : Bool :=
  match interpZ with
  | some e => decide (z < e)
  | none => false

/-- `LinkageModel._determine_particle_state` (lines 281–306): for each
particle `(x, y, z)` of the swarm, linearly interpolate the surface
elevation at `(x, y)` (oracle `interp`, standing for
`griddata(points=known_xy, values=known_z, xi=..., method='linear')`) and
flag sediment iff `z` is strictly below it.  Returns one Bool per
particle. -/
def determine_particle_state (interp : ℚ × ℚ → Option ℚ)
    (volume : List Vec3) : List Bool :=
  volume.map fun p => flagOf (interp (p.1, p.2.1)) p.2.2

/-- The per-particle body of the `_update_material_types` loop (lines
391–398), acting on one material index `m` with classification flag
`flag`.  Both `if`s test the *original* `material` value (the Python loop
variable), and the second write overrides the first. -/
def updateOne (map0 map1 : List ℤ) (flag : Bool) (m : ℤ) : ℤ :=
  let d₁ := if m ∈ map0 ∧ flag = true then map1.headI else m
  if m ∈ map1 ∧ flag = false then map0.headI else d₁

/-- `LinkageModel._update_material_types` (lines 381–398): skip when
material changes are disabled, otherwise rewrite each particle's material
index from its classification flag.  `map0` is `material_map[0]` (air
indices), `map1` is `material_map[1]` (sediment indices); the canonical
write targets are `material_map[1][0]` and `material_map[0][0]`. -/
def update_material_types (disable : Bool) (map0 map1 : List ℤ)
    (flags : List Bool) (mats : List ℤ) : List ℤ :=
  if disable then mats
  else (mats.zip flags).map fun p => updateOne map0 map1 p.2 p.1

/-- The `dt_seconds` returned by the update callback for one step. -/
def dt_of (W : World) (e : ℚ) (s : LState) : ℚ := W.upd s (max_seconds_of e s)

/-- The tracer displacement field computed from the velocity samples in one
step: `tracer_disp = tracer_velocity_mps * SECONDS_PER_YEAR * dt_years`
(line 166), with velocities sampled after advection. -/
def tracer_disp_of (W : World) (e : ℚ) (s : LState) : List Vec3 :=
  (W.velocity { s with tracers := W.integrate s.tracers (dt_of W e s) }).map
    fun v =>
      (v.1 * SECONDS_PER_YEAR * (dt_of W e s / SECONDS_PER_YEAR),
       v.2.1 * SECONDS_PER_YEAR * (dt_of W e s / SECONDS_PER_YEAR),
       v.2.2 * SECONDS_PER_YEAR * (dt_of W e s / SECONDS_PER_YEAR))

/-- A concrete well-behaved world: the update callback always consumes the
full requested window, advection keeps the single tracer in place, the
velocity sample is zero, smoothing is the identity. -/
def demoWorld : World where
  upd := fun _ m => m
  integrate := fun t _ => t
  velocity := fun _ => [(0, 0, 0)]
  smooth := fun _ d => d

/-- A world whose update callback overruns the requested window by one
second. -/
def demoBadWorld : World where
  upd := fun _ m => m + 1
  integrate := fun t _ => t
  velocity := fun _ => [(0, 0, 0)]
  smooth := fun _ d => d

/-- A freshly constructed linkage object (checkpoint interval 10 years). -/
def demoInit : LState where
  time_years := 0
  checkpoint_number := 0
  next_checkpoint_years := 0
  disp_inserted := false
  T_disp := []
  injected_disps := []
  tracers := [(0, 0, 0)]
  model_started := false
  checkpoint_interval := 10

/-- The state right after `_startup`. -/
def demoStarted : LState := (startup demoInit).1

/-- The state after one full-window coupling step of `demoWorld` from
`demoStarted`. -/
def demoFinal : LState where
  time_years := 10
  checkpoint_number := 2
  next_checkpoint_years := 20
  disp_inserted := true
  T_disp := [(0, 10)]
  injected_disps := [(0, 0, 0)]
  tracers := [(0, 0, 0)]
  model_started := true
  checkpoint_interval := 10

end Linkage

namespace Linkage

/-- A state with the displacement row already inserted. -/
def demoInserted : LState :=
  { demoInit with disp_inserted := true, T_disp := [(0, 1)] }

end Linkage

namespace Linkage

/-! ## Helper lemmas -/

lemma SECONDS_PER_YEAR_pos : 0 < SECONDS_PER_YEAR := by norm_num [SECONDS_PER_YEAR]

lemma updateOne_idem (map0 map1 : List ℤ) (f : Bool) (m : ℤ) :
    updateOne map0 map1 f (updateOne map0 map1 f m) = updateOne map0 map1 f m := by
  cases f <;> simp only [updateOne] <;> split_ifs <;> simp_all

lemma length_overwriteHead (l : List (ℚ × ℚ)) (a b : ℚ) :
    (overwriteHead l a b).length = l.length := by
  cases l <;> simp [overwriteHead]

end Linkage

namespace Linkage

/-- Full characterisation of a successful loop iteration. -/
lemma stepBody_ok_spec {W : World} {σ e : ℚ} {s s' : LState}
    {evs : List Event} (h : stepBody W σ e s = .ok (s', evs)) :
      dt_of W e s ≤ max_seconds_of e s
    ∧ s'.time_years = s.time_years + dt_of W e s / SECONDS_PER_YEAR
    ∧ s'.checkpoint_interval = s.checkpoint_interval
    ∧ s'.model_started = s.model_started
    ∧ s'.disp_inserted = true
    ∧ s'.tracers = W.integrate s.tracers (dt_of W e s)
    ∧ (dt_of W e s = max_seconds_of e s →
         evs = [Event.checkpoint s.checkpoint_number s.time_years]
       ∧ s'.checkpoint_number = s.checkpoint_number + 1
       ∧ s'.next_checkpoint_years
           = s.next_checkpoint_years + s.checkpoint_interval)
    ∧ (dt_of W e s ≠ max_seconds_of e s →
         evs = []
       ∧ s'.checkpoint_number = s.checkpoint_number
       ∧ s'.next_checkpoint_years = s.next_checkpoint_years)
    ∧ (s.disp_inserted = false →
         s'.T_disp = (s.time_years,
           s.time_years + dt_of W e s / SECONDS_PER_YEAR) :: s.T_disp)
    ∧ (s.disp_inserted = true →
         s'.T_disp = overwriteHead s.T_disp s.time_years
           (s.time_years + dt_of W e s / SECONDS_PER_YEAR))
    ∧ (σ = 0 → s'.injected_disps = tracer_disp_of W e s) := by
  simp only [stepBody] at h
  split at h
  · exact absurd h (by simp)
  · next hle =>
    rw [not_lt] at hle
    by_cases hwr : W.upd s (max_seconds_of e s) = max_seconds_of e s <;>
      by_cases hσ : σ = 0 <;>
        by_cases hd : s.disp_inserted <;>
          simp only [hwr, hσ, hd, decide_True, decide_False, if_true, if_false,
            decide_eq_true_eq, if_pos, if_neg, not_false_iff,
            inject_badlands_displacement, inject_badlands_displacement_smooth,
            Bool.false_eq_true, ite_true, ite_false, Except.ok.injEq,
            Prod.mk.injEq] at h <;>
          obtain ⟨hs, hevs⟩ := h <;>
          subst hs <;> subst hevs <;>
          simp_all [dt_of, tracer_disp_of, hle]

end Linkage

namespace Linkage

/-- The step succeeds whenever the update callback respects its contract. -/
lemma stepBody_ok_of_le {W : World} {σ e : ℚ} {s : LState}
    (h : dt_of W e s ≤ max_seconds_of e s) :
    ∃ s' evs, stepBody W σ e s = .ok (s', evs) := by
  simp only [dt_of] at h
  simp only [stepBody]
  rw [if_neg (not_lt.2 h)]
  exact ⟨_, _, rfl⟩

/-- Checkpoint indices emitted by the loop are consecutive, starting at the
state's current `_checkpoint_number`, which advances by the number of
firings; the configured interval and started flag are never modified. -/
lemma loopRun_ok_ck {W : World} {σ e : ℚ} :
    ∀ {fuel : ℕ} {s s' : LState} {evs : List Event},
      loopRun W σ e fuel s = .ok (s', evs) →
        ckIdxs evs = List.range' s.checkpoint_number (ckIdxs evs).length
      ∧ s'.checkpoint_number = s.checkpoint_number + (ckIdxs evs).length
      ∧ s'.checkpoint_interval = s.checkpoint_interval
      ∧ s'.model_started = s.model_started := by
  intro fuel
  induction fuel with
  | zero =>
    intro s s' evs h
    simp only [loopRun, Except.ok.injEq, Prod.mk.injEq] at h
    obtain ⟨hs, hevs⟩ := h
    subst hs; subst hevs
    simp [ckIdxs]
  | succ n ih =>
    intro s s' evs h
    simp only [loopRun] at h
    split at h
    · split at h
      · cases h
      · next s₁ evs₁ hstep =>
        split at h
        · cases h
        · next s₂ evs₂ hrest =>
          simp only [Except.ok.injEq, Prod.mk.injEq] at h
          obtain ⟨hs, hevs⟩ := h
          subst hs; subst hevs
          obtain ⟨-, -, hint₁, hms₁, -, -, hfire, hnofire, -, -, -⟩ :=
            stepBody_ok_spec hstep
          obtain ⟨hck, hnum, hint, hms⟩ := ih hrest
          by_cases hwr : dt_of W e s = max_seconds_of e s
          · obtain ⟨hevs₁, hnum₁, -⟩ := hfire hwr
            subst hevs₁
            rw [hnum₁] at hck hnum
            constructor
            · simp only [ckIdxs, List.map_append, List.map_cons, List.map_nil,
                List.length_append, List.length_cons, List.length_nil]
              simp only [ckIdxs] at hck
              rw [hck, Nat.add_comm 1, List.range'_succ]
              simp
            · refine ⟨?_, hint.trans hint₁, hms.trans hms₁⟩
              rw [hnum]
              simp only [ckIdxs, List.map_append, List.map_cons, List.map_nil,
                List.length_append, List.length_cons, List.length_nil]
              ring
          · obtain ⟨hevs₁, hnum₁, -⟩ := hnofire hwr
            subst hevs₁
            rw [hnum₁] at hck hnum
            simp only [List.nil_append]
            exact ⟨hck, hnum, hint.trans hint₁, hms.trans hms₁⟩
    · simp only [Except.ok.injEq, Prod.mk.injEq] at h
      obtain ⟨hs, hevs⟩ := h
      subst hs; subst hevs
      simp [ckIdxs]

end Linkage

namespace Linkage

/-- The next-checkpoint boundary only ever advances by whole multiples of the
configured interval. -/
lemma loopRun_ok_nextcp {W : World} {σ e : ℚ} :
    ∀ {fuel : ℕ} {s s' : LState} {evs : List Event},
      loopRun W σ e fuel s = .ok (s', evs) →
      ∀ k : ℕ, s.next_checkpoint_years = k * s.checkpoint_interval →
      ∃ k' : ℕ, k ≤ k'
        ∧ s'.next_checkpoint_years = k' * s.checkpoint_interval := by
  intro fuel
  induction fuel with
  | zero =>
    intro s s' evs h k hk
    simp only [loopRun, Except.ok.injEq, Prod.mk.injEq] at h
    obtain ⟨hs, -⟩ := h
    subst hs
    exact ⟨k, le_refl k, hk⟩
  | succ n ih =>
    intro s s' evs h k hk
    simp only [loopRun] at h
    split at h
    · split at h
      · cases h
      · next s₁ evs₁ hstep =>
        split at h
        · cases h
        · next s₂ evs₂ hrest =>
          simp only [Except.ok.injEq, Prod.mk.injEq] at h
          obtain ⟨hs, -⟩ := h
          subst hs
          obtain ⟨-, -, hint₁, -, -, -, hfire, hnofire, -, -, -⟩ :=
            stepBody_ok_spec hstep
          by_cases hwr : dt_of W e s = max_seconds_of e s
          · obtain ⟨-, -, hnext₁⟩ := hfire hwr
            obtain ⟨k', hk', hres⟩ := ih hrest (k + 1)
              (by rw [hnext₁, hk, hint₁]; push_cast; ring)
            exact ⟨k', le_trans (Nat.le_succ k) hk', by rw [hres, hint₁]⟩
          · obtain ⟨-, -, hnext₁⟩ := hnofire hwr
            obtain ⟨k', hk', hres⟩ := ih hrest k (by rw [hnext₁, hk, hint₁])
            exact ⟨k', hk', by rw [hres, hint₁]⟩
    · simp only [Except.ok.injEq, Prod.mk.injEq] at h
      obtain ⟨hs, -⟩ := h
      subst hs
      exact ⟨k, le_refl k, hk⟩

/-- Once the displacement row has been inserted, iterating the loop body
keeps the history at exactly one row. -/
lemma runSteps_T_disp {W : World} {σ e : ℚ} :
    ∀ {n : ℕ} {s s' : LState}, runSteps W σ e n s = .ok s' →
      s.disp_inserted = true → s.T_disp.length = 1 →
      s'.disp_inserted = true ∧ s'.T_disp.length = 1 := by
  intro n
  induction n with
  | zero =>
    intro s s' h hd hl
    simp only [runSteps, Except.ok.injEq] at h
    subst h
    exact ⟨hd, hl⟩
  | succ n ih =>
    intro s s' h hd hl
    simp only [runSteps] at h
    split at h
    · cases h
    · next s₁ evs₁ hstep =>
      obtain ⟨-, -, -, -, hd₁, -, -, -, -, hover, -⟩ := stepBody_ok_spec hstep
      refine ih h hd₁ ?_
      rw [hover hd, length_overwriteHead, hl]

end Linkage

namespace Linkage

lemma updateOne_air_to_sed {map0 map1 : List ℤ} {f : Bool} {m : ℤ}
    (h : m ∈ map0) (hf : f = true) :
    updateOne map0 map1 f m = map1.headI := by
  subst hf
  simp [updateOne, h]

lemma updateOne_sed_to_air {map0 map1 : List ℤ} {f : Bool} {m : ℤ}
    (h : m ∈ map1) (hf : f = false) :
    updateOne map0 map1 f m = map0.headI := by
  subst hf
  simp [updateOne, h]

lemma updateOne_no_transition {map0 map1 : List ℤ} {f : Bool} {m : ℤ}
    (h1 : ¬(m ∈ map0 ∧ f = true)) (h2 : ¬(m ∈ map1 ∧ f = false)) :
    updateOne map0 map1 f m = m := by
  simp only [updateOne]
  rw [if_neg h2, if_neg h1]

lemma update_material_types_getElem {map0 map1 : List ℤ} {flags : List Bool}
    {mats : List ℤ} {i : ℕ} (h1 : i < mats.length) (h2 : i < flags.length)
    (h3 : i < (update_material_types false map0 map1 flags mats).length) :
    (update_material_types false map0 map1 flags mats)[i]
      = updateOne map0 map1 flags[i] mats[i] := by
  simp only [update_material_types, Bool.false_eq_true, if_false] at h3 ⊢
  rw [List.getElem_map, List.getElem_zip]

lemma update_twice (map0 map1 : List ℤ) :
    ∀ (mats : List ℤ) (flags : List Bool),
      ((((mats.zip flags).map fun p => updateOne map0 map1 p.2 p.1).zip
          flags).map fun p => updateOne map0 map1 p.2 p.1)
        = (mats.zip flags).map fun p => updateOne map0 map1 p.2 p.1 := by
  intro mats
  induction mats with
  | nil => intro flags; simp
  | cons m ms ih =>
    intro flags
    cases flags with
    | nil => simp
    | cons f fs =>
      simp only [List.zip_cons_cons, List.map_cons, updateOne_idem]
      rw [ih fs]

/-- **C5.**  For every particle, the classifier flags it sediment (`true`)
iff its z-coordinate is strictly below the surface elevation interpolated
at its (x, y); and `_update_material_types` writes only on transitions: an
air-set identifier flagged sediment becomes `material_map[1][0]`, a
sediment-set identifier flagged air becomes `material_map[0][0]`, and every
other identifier is left unchanged. -/
theorem classifier_flags_below_surface_and_updates_only_transitions :
    (∀ (interp : ℚ × ℚ → Option ℚ) (volume : List Vec3) (i : ℕ)
        (h1 : i < volume.length)
        (h2 : i < (determine_particle_state interp volume).length) (el : ℚ),
        interp (volume[i].1, volume[i].2.1) = some el →
        ((determine_particle_state interp volume)[i] = true
          ↔ volume[i].2.2 < el))
  ∧ (∀ (map0 map1 : List ℤ) (flags : List Bool) (mats : List ℤ) (i : ℕ),
        map0 ≠ [] → map1 ≠ [] →
        ∀ (h1 : i < mats.length) (h2 : i < flags.length)
          (h3 : i < (update_material_types false map0 map1 flags mats).length),
          (mats[i] ∈ map0 → flags[i] = true →
            (update_material_types false map0 map1 flags mats)[i]
              = map1.headI)
        ∧ (mats[i] ∈ map1 → flags[i] = false →
            (update_material_types false map0 map1 flags mats)[i]
              = map0.headI)
        ∧ (¬(mats[i] ∈ map0 ∧ flags[i] = true) →
           ¬(mats[i] ∈ map1 ∧ flags[i] = false) →
            (update_material_types false map0 map1 flags mats)[i]
              = mats[i])) := by
  constructor
  · intro interp volume i h1 h2 el hinterp
    simp only [determine_particle_state] at h2 ⊢
    rw [List.getElem_map]
    simp [flagOf, hinterp]
  · intro map0 map1 flags mats i _h0 _h1 h1 h2 h3
    rw [update_material_types_getElem h1 h2 h3]
    exact ⟨fun hm hf => updateOne_air_to_sed hm hf,
           fun hm hf => updateOne_sed_to_air hm hf,
           fun hn1 hn2 => updateOne_no_transition hn1 hn2⟩

/-- **C6.**  Material reclassification is idempotent: with unchanged
elevations and positions (hence unchanged flags), a second
`_update_material_types` pass leaves the material array produced by the
first pass unchanged. -/
theorem reclassification_idempotent :
    ∀ (map0 map1 : List ℤ) (flags : List Bool) (mats : List ℤ),
      map0 ≠ [] → map1 ≠ [] →
      (∀ m ∈ mats, (m ∈ map0 ∧ m ∉ map1) ∨ (m ∈ map1 ∧ m ∉ map0)) →
      update_material_types false map0 map1 flags
          (update_material_types false map0 map1 flags mats)
        = update_material_types false map0 map1 flags mats := by
  intro map0 map1 flags mats _h0 _h1 _hone
  simp only [update_material_types, Bool.false_eq_true, if_false]
  exact update_twice map0 map1 mats flags

/-- **C10.**  Out-of-hull particles: the linear interpolation yields NaN
(modelled `none`), the strict comparison against NaN is `False`, so the
particle is flagged air; a sediment-set identifier flagged air is rewritten
to the canonical air identifier `material_map[0][0]`.  Classification is a
total function, so it cannot crash on such particles. -/
theorem out_of_hull_flagged_air :
    (∀ (interp : ℚ × ℚ → Option ℚ) (volume : List Vec3) (i : ℕ)
        (h1 : i < volume.length)
        (h2 : i < (determine_particle_state interp volume).length),
        interp (volume[i].1, volume[i].2.1) = none →
        (determine_particle_state interp volume)[i] = false)
  ∧ (∀ (map0 map1 : List ℤ) (m : ℤ), map0 ≠ [] → m ∈ map1 →
        updateOne map0 map1 false m = map0.headI) := by
  constructor
  · intro interp volume i h1 h2 hinterp
    simp only [determine_particle_state] at h2 ⊢
    rw [List.getElem_map]
    simp [flagOf, hinterp]
  · intro map0 map1 m _h0 hm
    exact updateOne_sed_to_air hm rfl

end Linkage

namespace Linkage

/-- **C1.**  A checkpoint callback invocation occurs in a step iff the
update callback's returned `dt_seconds` equals the requested `max_seconds`;
and over a whole fresh run the checkpoint indices form the consecutive
sequence 0, 1, 2, …, with index 0 fired during startup before any step. -/
theorem checkpoint_iff_full_window_and_indices_consecutive :
    (∀ (W : World) (σ e : ℚ) (s s' : LState) (evs : List Event),
        stepBody W σ e s = .ok (s', evs) →
        ((∃ i t, Event.checkpoint i t ∈ evs)
          ↔ dt_of W e s = max_seconds_of e s))
  ∧ (∀ (W : World) (years σ : ℚ) (fuel : ℕ) (s₀ s' : LState)
        (evs : List Event),
        s₀.model_started = false → s₀.checkpoint_number = 0 →
        run_for_years W years σ fuel s₀ = .ok (s', evs) →
        (∃ rest, evs = Event.checkpoint 0 s₀.time_years :: rest)
        ∧ ckIdxs evs = List.range evs.length) := by
  constructor
  · intro W σ e s s' evs h
    obtain ⟨-, -, -, -, -, -, hfire, hnofire, -, -, -⟩ := stepBody_ok_spec h
    by_cases hwr : dt_of W e s = max_seconds_of e s
    · obtain ⟨hevs, -, -⟩ := hfire hwr
      subst hevs
      exact ⟨fun _ => hwr, fun _ => ⟨_, _, List.mem_singleton.2 rfl⟩⟩
    · obtain ⟨hevs, -, -⟩ := hnofire hwr
      subst hevs
      simp [hwr]
  · intro W years σ fuel s₀ s' evs hms hck h
    simp only [run_for_years, hms, Bool.false_eq_true, if_false, startup] at h
    split at h
    · cases h
    · next s₂ evs₂ hloop =>
      simp only [Except.ok.injEq, Prod.mk.injEq] at h
      obtain ⟨-, hevs⟩ := h
      subst hevs
      obtain ⟨hidx, -, -, -⟩ := loopRun_ok_ck hloop
      simp only [hck] at hidx ⊢
      constructor
      · exact ⟨evs₂, rfl⟩
      · simp only [ckIdxs, List.map_cons, List.map_nil, List.nil_append,
          List.map_append, List.singleton_append, List.length_cons]
        simp only [ckIdxs, List.length_map] at hidx
        rw [hidx, List.range_eq_range', List.range'_succ]

/-- **C2 (amended).**  When the checkpoint callback fires, the time passed
to it is the *pre-advance* simulation time — the clock value at the start
of the step; the clock is advanced by `dt_years` only after the callback
returns. -/
theorem checkpoint_observes_pre_step_time :
    ∀ (W : World) (σ e : ℚ) (s s' : LState) (evs : List Event) (i : ℕ)
      (t : ℚ),
      stepBody W σ e s = .ok (s', evs) →
      Event.checkpoint i t ∈ evs →
      t = s.time_years
      ∧ s'.time_years = s.time_years + dt_of W e s / SECONDS_PER_YEAR := by
  intro W σ e s s' evs i t h hmem
  obtain ⟨-, htime, -, -, -, -, hfire, hnofire, -, -, -⟩ := stepBody_ok_spec h
  by_cases hwr : dt_of W e s = max_seconds_of e s
  · obtain ⟨hevs, -, -⟩ := hfire hwr
    subst hevs
    obtain hmem' := List.mem_singleton.1 hmem
    cases hmem'
    exact ⟨rfl, htime⟩
  · obtain ⟨hevs, -, -⟩ := hnofire hwr
    subst hevs
    cases hmem

/-- **C3.**  The displacement history stays a single row: the first
injection prepends one `[time, time + dt]` row, every later injection (in
both the plain and the smoothed variant) only overwrites the first row's
two time bounds in place, and after `N ≥ 1` coupling steps from a fresh
state the table's row count is exactly 1. -/
theorem displacement_history_single_row :
    (∀ (W : World) (time dt sigma : ℚ) (disp : List Vec3) (s : LState),
        s.disp_inserted = false →
          (inject_badlands_displacement time dt disp s).T_disp
              = (time, time + dt) :: s.T_disp
        ∧ (inject_badlands_displacement_smooth W time dt disp sigma s).T_disp
              = (time, time + dt) :: s.T_disp)
  ∧ (∀ (W : World) (time dt sigma : ℚ) (disp : List Vec3) (s : LState),
        s.disp_inserted = true →
          (inject_badlands_displacement time dt disp s).T_disp
              = overwriteHead s.T_disp time (time + dt)
        ∧ (inject_badlands_displacement_smooth W time dt disp sigma s).T_disp
              = overwriteHead s.T_disp time (time + dt)
        ∧ (inject_badlands_displacement time dt disp s).T_disp.length
              = s.T_disp.length
        ∧ (inject_badlands_displacement time dt disp s).T_disp.tail
              = s.T_disp.tail)
  ∧ (∀ (W : World) (σ e : ℚ) (N : ℕ) (s₀ s' : LState),
        1 ≤ N → s₀.disp_inserted = false → s₀.T_disp = [] →
        runSteps W σ e N s₀ = .ok s' → s'.T_disp.length = 1) := by
  refine ⟨?_, ?_, ?_⟩
  · intro W time dt sigma disp s hd
    constructor <;>
      simp [inject_badlands_displacement,
        inject_badlands_displacement_smooth, hd]
  · intro W time dt sigma disp s hd
    refine ⟨?_, ?_, ?_, ?_⟩ <;>
      cases htd : s.T_disp <;>
        simp [inject_badlands_displacement,
          inject_badlands_displacement_smooth, hd, overwriteHead, htd]
  · intro W σ e N s₀ s' hN hd ht h
    cases N with
    | zero => omega
    | succ n =>
      simp only [runSteps] at h
      split at h
      · cases h
      · next s₁ evs₁ hstep =>
        obtain ⟨-, -, -, -, hd₁, -, -, -, hfirst, -, -⟩ :=
          stepBody_ok_spec hstep
        refine (runSteps_T_disp h hd₁ ?_).2
        rw [hfirst hd, ht]
        rfl

/-- **C4.**  Within one completed step the clock never passes the pending
checkpoint boundary (`time_years + dt_years ≤ _next_checkpoint_years`), and
over any fresh run `_next_checkpoint_years` is always a positive integer
multiple of `checkpoint_interval`. -/
theorem boundary_respected_and_boundaries_are_interval_multiples :
    (∀ (W : World) (σ e : ℚ) (s s' : LState) (evs : List Event),
        stepBody W σ e s = .ok (s', evs) →
          s.time_years + dt_of W e s / SECONDS_PER_YEAR
              ≤ s.next_checkpoint_years
        ∧ s'.time_years ≤ s.next_checkpoint_years)
  ∧ (∀ (W : World) (years σ : ℚ) (fuel : ℕ) (s₀ s' : LState)
        (evs : List Event),
        s₀.model_started = false →
        run_for_years W years σ fuel s₀ = .ok (s', evs) →
        ∃ k : ℕ, 1 ≤ k
          ∧ s'.next_checkpoint_years = k * s₀.checkpoint_interval) := by
  constructor
  · intro W σ e s s' evs h
    obtain ⟨hle, htime, -⟩ := stepBody_ok_spec h
    have hdiv : dt_of W e s / SECONDS_PER_YEAR
        ≤ max_seconds_of e s / SECONDS_PER_YEAR := by
      exact div_le_div_of_nonneg_right hle SECONDS_PER_YEAR_pos.le
    have hmax : max_seconds_of e s / SECONDS_PER_YEAR
        = min (e - s.time_years) (s.next_checkpoint_years - s.time_years) := by
      rw [max_seconds_of, mul_div_cancel_right₀ _ (ne_of_gt SECONDS_PER_YEAR_pos)]
    have hmin : min (e - s.time_years) (s.next_checkpoint_years - s.time_years)
        ≤ s.next_checkpoint_years - s.time_years := min_le_right _ _
    constructor
    · linarith
    · rw [htime]; linarith
  · intro W years σ fuel s₀ s' evs hms h
    simp only [run_for_years, hms, Bool.false_eq_true, if_false, startup] at h
    split at h
    · cases h
    · next s₂ evs₂ hloop =>
      simp only [Except.ok.injEq, Prod.mk.injEq] at h
      obtain ⟨hs, -⟩ := h
      subst hs
      obtain ⟨k', hk', hres⟩ := loopRun_ok_nextcp hloop 1 (by simp)
      exact ⟨k', hk', by simpa using hres⟩

end Linkage

namespace Linkage

/-- **C7.**  If the update callback returns more seconds than requested, the
step fails at the assertion with the requested and observed values reported,
the loop state at the point of detection is exactly the step's starting
state (clock, checkpoint index, boundary, tracers and displacement history
all unchanged), and the loop as a whole halts with that violation. -/
theorem contract_violation_halts_without_mutation :
    ∀ (W : World) (σ e : ℚ) (s : LState),
      max_seconds_of e s < dt_of W e s →
        stepBody W σ e s
            = .error ⟨max_seconds_of e s, dt_of W e s, s⟩
      ∧ (∀ v : Violation, stepBody W σ e s = .error v →
            v.requested = max_seconds_of e s
          ∧ v.observed = dt_of W e s
          ∧ v.state.time_years = s.time_years
          ∧ v.state.checkpoint_number = s.checkpoint_number
          ∧ v.state.next_checkpoint_years = s.next_checkpoint_years
          ∧ v.state.tracers = s.tracers
          ∧ v.state.T_disp = s.T_disp)
      ∧ (∀ fuel : ℕ, s.time_years < e →
            loopRun W σ e (fuel + 1) s
              = .error ⟨max_seconds_of e s, dt_of W e s, s⟩) := by
  intro W σ e s h
  have herr : stepBody W σ e s
      = .error ⟨max_seconds_of e s, dt_of W e s, s⟩ := by
    simp only [dt_of] at h ⊢
    simp only [stepBody]
    rw [if_pos h]
  refine ⟨herr, ?_, ?_⟩
  · intro v hv
    rw [herr] at hv
    injection hv with hv
    subst hv
    exact ⟨rfl, rfl, rfl, rfl, rfl, rfl, rfl⟩
  · intro fuel hlt
    simp only [loopRun]
    rw [if_pos hlt, herr]

/-- **C8.**  The clock of a completed step advances by exactly
`dt_seconds / SECONDS_PER_YEAR`, where `dt_seconds` is the value the
update callback returned (never the requested ceiling). -/
theorem clock_advances_by_returned_dt :
    ∀ (W : World) (σ e : ℚ) (s s' : LState) (evs : List Event),
      stepBody W σ e s = .ok (s', evs) →
      s'.time_years = s.time_years + dt_of W e s / SECONDS_PER_YEAR := by
  intro W σ e s s' evs h
  exact (stepBody_ok_spec h).2.1

/-- **C9.**  With smoothing parameter `sigma = 0` the displacement field
handed to the surface-process model is exactly the unmodified tracer
displacement field computed from the velocity samples. -/
theorem sigma_zero_injects_unsmoothed_displacement :
    ∀ (W : World) (e : ℚ) (s s' : LState) (evs : List Event),
      stepBody W 0 e s = .ok (s', evs) →
      s'.injected_disps = tracer_disp_of W e s := by
  intro W e s s' evs h
  exact (stepBody_ok_spec h).2.2.2.2.2.2.2.2.2.2 rfl

end Linkage

namespace Linkage

/-- **C2 counterexample.**  A concrete completed run (checkpoint interval
10 years, update callback consuming the full window): the step that reaches
the checkpoint boundary fires `Event.checkpoint 1 0` — the callback is
passed time 0, the clock value *before* the step's advance — while the
post-step simulation time is 10.  The claim predicts the callback receives
10. -/
theorem checkpoint_time_is_not_post_step :
    run_for_years demoWorld 10 0 1 demoInit
        = .ok (demoFinal, [Event.checkpoint 0 0, Event.checkpoint 1 0])
    ∧ demoFinal.time_years = 10
    ∧ (0 : ℚ) ≠ 10 := by
  refine ⟨?_, by norm_num [demoFinal], by norm_num⟩
  norm_num [run_for_years, loopRun, stepBody, startup, max_seconds_of,
    SECONDS_PER_YEAR, inject_badlands_displacement, demoWorld, demoInit,
    demoFinal]

end Linkage

namespace Linkage

/-- Witness for C1 at the concrete `demoWorld` fixtures. -/
theorem checkpoint_iff_full_window_witness :
    (∃ s' evs, stepBody demoWorld 0 10 demoStarted = .ok (s', evs)
        ∧ ((∃ i t, Event.checkpoint i t ∈ evs)
            ↔ dt_of demoWorld 10 demoStarted = max_seconds_of 10 demoStarted))
  ∧ ((∃ rest, ([Event.checkpoint 0 demoInit.time_years] : List Event)
          = Event.checkpoint 0 demoInit.time_years :: rest)
      ∧ ckIdxs [Event.checkpoint 0 demoInit.time_years]
          = List.range
              ([Event.checkpoint 0 demoInit.time_years] : List Event).length) := by
  constructor
  · obtain ⟨s', evs, h⟩ :=
      stepBody_ok_of_le (W := demoWorld) (σ := 0) (e := 10) (s := demoStarted)
        (le_of_eq rfl)
    exact ⟨s', evs, h,
      checkpoint_iff_full_window_and_indices_consecutive.1 demoWorld 0 10
        demoStarted s' evs h⟩
  · exact checkpoint_iff_full_window_and_indices_consecutive.2 demoWorld 10 0 0
      demoInit demoStarted [Event.checkpoint 0 demoInit.time_years] rfl rfl
      (by rfl)

/-- Witness for the amended C2 at the concrete fixtures. -/
theorem checkpoint_observes_pre_step_time_witness :
    ∃ s' evs, stepBody demoWorld 0 10 demoStarted = .ok (s', evs)
      ∧ ∃ i t, Event.checkpoint i t ∈ evs
        ∧ t = demoStarted.time_years
        ∧ s'.time_years = demoStarted.time_years
            + dt_of demoWorld 10 demoStarted / SECONDS_PER_YEAR := by
  obtain ⟨s', evs, h⟩ :=
    stepBody_ok_of_le (W := demoWorld) (σ := 0) (e := 10) (s := demoStarted)
      (le_of_eq rfl)
  obtain ⟨hevs, -, -⟩ := (stepBody_ok_spec h).2.2.2.2.2.2.1 rfl
  have hmem : Event.checkpoint demoStarted.checkpoint_number
      demoStarted.time_years ∈ evs := by
    rw [hevs]; exact List.mem_singleton.2 rfl
  exact ⟨s', evs, h, demoStarted.checkpoint_number, demoStarted.time_years,
    hmem, rfl,
    (checkpoint_observes_pre_step_time demoWorld 0 10 demoStarted s' evs _ _
      h hmem).2⟩

/-- Witness for C3 at the concrete fixtures. -/
theorem displacement_history_single_row_witness :
    ((inject_badlands_displacement 0 1 [] demoInit).T_disp
          = (0, 0 + 1) :: demoInit.T_disp
      ∧ (inject_badlands_displacement_smooth demoWorld 0 1 [] 2
            demoInit).T_disp = (0, 0 + 1) :: demoInit.T_disp)
  ∧ ((inject_badlands_displacement 0 1 [] demoInserted).T_disp
          = overwriteHead demoInserted.T_disp 0 (0 + 1)
      ∧ (inject_badlands_displacement_smooth demoWorld 0 1 [] 2
            demoInserted).T_disp = overwriteHead demoInserted.T_disp 0 (0 + 1)
      ∧ (inject_badlands_displacement 0 1 [] demoInserted).T_disp.length
          = demoInserted.T_disp.length
      ∧ (inject_badlands_displacement 0 1 [] demoInserted).T_disp.tail
          = demoInserted.T_disp.tail)
  ∧ (∃ s', runSteps demoWorld 0 10 1 demoInit = .ok s'
      ∧ s'.T_disp.length = 1) := by
  refine ⟨?_, ?_, ?_⟩
  · exact displacement_history_single_row.1 demoWorld 0 1 2 [] demoInit rfl
  · exact displacement_history_single_row.2.1 demoWorld 0 1 2 [] demoInserted
      rfl
  · obtain ⟨s₁, evs₁, hstep⟩ :=
      stepBody_ok_of_le (W := demoWorld) (σ := 0) (e := 10) (s := demoInit)
        (le_of_eq rfl)
    have hrun : runSteps demoWorld 0 10 1 demoInit = .ok s₁ := by
      simp [runSteps, hstep]
    exact ⟨s₁, hrun,
      displacement_history_single_row.2.2 demoWorld 0 10 1 demoInit s₁
        (le_refl 1) rfl rfl hrun⟩

/-- Witness for C4 at the concrete fixtures. -/
theorem boundary_respected_witness :
    (∃ s' evs, stepBody demoWorld 0 10 demoStarted = .ok (s', evs)
        ∧ demoStarted.time_years
              + dt_of demoWorld 10 demoStarted / SECONDS_PER_YEAR
            ≤ demoStarted.next_checkpoint_years
        ∧ s'.time_years ≤ demoStarted.next_checkpoint_years)
  ∧ (∃ k : ℕ, 1 ≤ k
      ∧ demoStarted.next_checkpoint_years
          = k * demoInit.checkpoint_interval) := by
  constructor
  · obtain ⟨s', evs, h⟩ :=
      stepBody_ok_of_le (W := demoWorld) (σ := 0) (e := 10) (s := demoStarted)
        (le_of_eq rfl)
    obtain ⟨h1, h2⟩ :=
      boundary_respected_and_boundaries_are_interval_multiples.1 demoWorld 0
        10 demoStarted s' evs h
    exact ⟨s', evs, h, h1, h2⟩
  · exact boundary_respected_and_boundaries_are_interval_multiples.2 demoWorld
      10 0 0 demoInit demoStarted [Event.checkpoint 0 demoInit.time_years] rfl
      (by rfl)

/-- Witness for C5 at a one-particle configuration below a flat surface. -/
theorem classifier_flags_witness :
    ((determine_particle_state (fun _ => some 5)
        [((0 : ℚ), (0 : ℚ), (3 : ℚ))]).get ⟨0, by decide⟩ = true
      ↔ (3 : ℚ) < 5)
  ∧ (update_material_types false [0] [1] [true] [0]).get ⟨0, by decide⟩
      = ([1] : List ℤ).headI
  ∧ (update_material_types false [0] [1] [false] [1]).get ⟨0, by decide⟩
      = ([0] : List ℤ).headI
  ∧ (update_material_types false [0] [1] [false] [0]).get ⟨0, by decide⟩
      = (0 : ℤ) := by
  refine ⟨?_, ?_, ?_, ?_⟩
  · exact classifier_flags_below_surface_and_updates_only_transitions.1
      (fun _ => some 5) [((0 : ℚ), (0 : ℚ), (3 : ℚ))] 0 (by decide)
      (by decide) 5 rfl
  · exact (classifier_flags_below_surface_and_updates_only_transitions.2
      [0] [1] [true] [0] 0 (by decide) (by decide) (by decide) (by decide)
      (by decide)).1 (by decide) rfl
  · exact (classifier_flags_below_surface_and_updates_only_transitions.2
      [0] [1] [false] [1] 0 (by decide) (by decide) (by decide) (by decide)
      (by decide)).2.1 (by decide) rfl
  · exact (classifier_flags_below_surface_and_updates_only_transitions.2
      [0] [1] [false] [0] 0 (by decide) (by decide) (by decide) (by decide)
      (by decide)).2.2 (by decide) (by decide)

/-- Witness for C6 at a two-particle configuration. -/
theorem reclassification_idempotent_witness :
    update_material_types false [0] [1] [true, false]
        (update_material_types false [0] [1] [true, false] [0, 1])
      = update_material_types false [0] [1] [true, false] [0, 1] :=
  reclassification_idempotent [0] [1] [true, false] [0, 1] (by decide)
    (by decide) (by decide)

/-- Witness for C7: the overrunning callback trips the assertion. -/
theorem contract_violation_witness :
    stepBody demoBadWorld 0 10 demoStarted
        = .error ⟨max_seconds_of 10 demoStarted,
                  dt_of demoBadWorld 10 demoStarted, demoStarted⟩
    ∧ loopRun demoBadWorld 0 10 1 demoStarted
        = .error ⟨max_seconds_of 10 demoStarted,
                  dt_of demoBadWorld 10 demoStarted, demoStarted⟩ := by
  have h : max_seconds_of 10 demoStarted < dt_of demoBadWorld 10 demoStarted := by
    show max_seconds_of 10 demoStarted < max_seconds_of 10 demoStarted + 1
    exact lt_add_one _
  obtain ⟨h1, -, h3⟩ :=
    contract_violation_halts_without_mutation demoBadWorld 0 10 demoStarted h
  exact ⟨h1, h3 0 (by show (0 : ℚ) < 10; norm_num)⟩

/-- Witness for C8 at the concrete fixtures. -/
theorem clock_advances_witness :
    ∃ s' evs, stepBody demoWorld 0 10 demoStarted = .ok (s', evs)
      ∧ s'.time_years = demoStarted.time_years
          + dt_of demoWorld 10 demoStarted / SECONDS_PER_YEAR := by
  obtain ⟨s', evs, h⟩ :=
    stepBody_ok_of_le (W := demoWorld) (σ := 0) (e := 10) (s := demoStarted)
      (le_of_eq rfl)
  exact ⟨s', evs, h,
    clock_advances_by_returned_dt demoWorld 0 10 demoStarted s' evs h⟩

/-- Witness for C9 at the concrete fixtures. -/
theorem sigma_zero_witness :
    ∃ s' evs, stepBody demoWorld 0 10 demoStarted = .ok (s', evs)
      ∧ s'.injected_disps = tracer_disp_of demoWorld 10 demoStarted := by
  obtain ⟨s', evs, h⟩ :=
    stepBody_ok_of_le (W := demoWorld) (σ := 0) (e := 10) (s := demoStarted)
      (le_of_eq rfl)
  exact ⟨s', evs, h,
    sigma_zero_injects_unsmoothed_displacement demoWorld 10 demoStarted s'
      evs h⟩

/-- Witness for C10 at a particle outside the hull. -/
theorem out_of_hull_witness :
    (determine_particle_state (fun _ => none)
        [((0 : ℚ), (0 : ℚ), (3 : ℚ))]).get ⟨0, by decide⟩ = false
  ∧ updateOne [0] [1] false 1 = ([0] : List ℤ).headI := by
  constructor
  · exact out_of_hull_flagged_air.1 (fun _ => none)
      [((0 : ℚ), (0 : ℚ), (3 : ℚ))] 0 (by decide) (by decide) rfl
  · exact out_of_hull_flagged_air.2 [0] [1] 1 (by decide) (by decide)

end Linkage
